import Mathlib

/-!
Shallow embedding of the Route Manager of the cf-cdn-service-broker
repository (package `models`, file `src/unnamed/part_000`, together with
`Distribution.Delete` from `src/utils/cloudfront.go`).

Modelling conventions:
* The external collaborators (DNS resolver, CDN control plane, IAM
  certificate store, ACME client, PEM parser, database writes) are an
  environment `Env` of pure functions; a Go `(T, error)` return is
  `Except Err T`.
* Each Route-Manager operation returns its Go result together with a
  trace (`List Call`) of the observable collaborator calls it made, in
  order.  Read-only probes (DNS lookups, CDN `Get`) are modelled as pure
  environment queries and are not traced; the trace records ACME calls,
  IAM calls, CDN mutations and database writes.  The call alphabet also
  contains a `log` event so that statements about logging are
  expressible; the embedded code emits a `log` call exactly where the
  source logs (the source's `RenewAll` loop logs nothing).
* `time.Time` values are modelled as `Nat` (seconds); the SQL predicate
  `expires < now() + interval '30 days'` of `RenewAll` becomes a filter
  over an explicit database snapshot `List (Route × Certificate)`.
-/

/-- Go `error` values, abstracted to their message. -/
abbrev Err := String

/-- The `State` enumeration of `models` (stored as strings in the DB). -/
inductive State where
  | Provisioning
  | Provisioned
  | Deprovisioning
  | Deprovisioned
deriving DecidableEq, Repr

/-- `acme.CertificateResource` restricted to the fields the Route Manager
uses: `Domain`, `CertURL` and the PEM blob `Certificate`. -/
structure CertResource where
  domain : String
  certURL : String
  certificate : String
deriving DecidableEq, Repr

/-- The `Certificate` table row (`gorm.Model` collapsed to `id`). -/
structure Certificate where
  id : Nat
  routeId : Nat
  domain : String
  certURL : String
  certificate : String
  expires : Nat
deriving DecidableEq, Repr

/-- `Certificate.Resource()`: the ACME resource rebuilt from the row. -/
def Certificate.Resource (c : Certificate) : CertResource :=
  { domain := c.domain, certURL := c.certURL, certificate := c.certificate }

/-- The `Route` table row (`gorm.Model` collapsed to `id`). -/
structure Route where
  id : Nat
  instanceId : String
  state : State
  domainExternal : String
  domainInternal : String
  distId : String
  origin : String
  path : String
  certificate : Option Certificate
deriving DecidableEq, Repr

/-- `Route.GetDomains()`: `strings.Split(r.DomainExternal, ",")`.  The
split is taken character-wise (the separator is the single character
`,`), which agrees with Go's `strings.Split` for this separator and
computes inside the kernel. -/
def Route.GetDomains (r : Route) : List String :=
  (r.domainExternal.toList.splitOn ',').map fun cs => String.mk cs

/-- The view of a CloudFront distribution used by `checkDistribution`:
`*dist.Status` and `*dist.DistributionConfig.Enabled`. -/
structure DistView where
  status : String
  enabled : Bool
deriving DecidableEq, Repr

/-- The result of `CloudFront.Create`: `*dist.DomainName` and `*dist.Id`. -/
structure DistCreated where
  domainName : String
  id : String
deriving DecidableEq, Repr

/-- Observable collaborator calls, in the order the Route Manager makes
them.  Database writes are recorded as calls carrying the written row. -/
inductive Call where
  | iamUpload (name : String) (cert : CertResource)
  | iamRename (oldName newName : String)
  | iamDelete (name : String) (force : Bool)
  | cdnSetCert (distId certId : String)
  | cdnDelete (distId : String)
  | cdnCreate (domains : List String) (origin path : String)
  | acmeObtain (domains : List String)
  | acmeRenew (res : CertResource)
  | dbCreateRoute (r : Route)
  | dbSaveRoute (r : Route)
  | dbCreateCert (c : Certificate)
  | dbSaveCert (c : Certificate)
  | log (msg : String)
deriving DecidableEq, Repr

/-- Whether a call is a log event. -/
def Call.isLog : Call → Bool
  | .log _ => true
  | _ => false

/-- The collaborators of `RouteManager` (`Iam`, `CloudFront`, `Acme`, the
DNS resolver, the PEM parser and the database), as pure oracles.  Each
field is one method of the corresponding Go interface. -/
structure Env where
  lookupCNAME : String → Except Err String
  lookupHost : String → Except Err (List String)
  cdnCreate : List String → String → String → Except Err DistCreated
  cdnGet : String → Except Err DistView
  cdnSetCertificate : String → String → Except Err Unit
  cdnDelete : String → Except Err Bool
  iamUploadCertificate : String → CertResource → Except Err String
  iamRenameCertificate : String → String → Except Err Unit
  iamDeleteCertificate : String → Bool → Except Err Unit
  acmeObtainCertificate : List String → Except Err CertResource
  acmeRenewCertificate : CertResource → Except Err CertResource
  pemExpiration : String → Except Err Nat
  dbCreateRoute : Route → Except Err Unit

/-- `RouteManager.Create`: builds the Route, calls `CloudFront.Create`,
copies `DomainName` and `Id` into the Route and writes it.  The source
discards the result of `m.DB.Create(&route)` and returns `route, nil`;
the write is recorded in the trace but its outcome is ignored. -/
def Create (env : Env) (instanceId domain origin path : String) :
    Except Err Route × List Call :=
  let route : Route :=
    { id := 0, instanceId := instanceId, state := .Provisioning,
      domainExternal := domain, domainInternal := "", distId := "",
      origin := origin, path := path, certificate := none }
  match env.cdnCreate route.GetDomains origin path with
  | .error e => (.error e, [.cdnCreate route.GetDomains origin path])
  | .ok dist =>
    let route' := { route with domainInternal := dist.domainName, distId := dist.id }
    (.ok route', [.cdnCreate route.GetDomains origin path, .dbCreateRoute route'])

/-- The loop body of `checkCNAME`: `net.LookupCNAME` each domain in turn,
returning `false` on a resolver error or a mismatch. -/
def checkCNAMEList (env : Env) (expects : String) : List String → Bool
  | [] => true
  | d :: ds =>
    match env.lookupCNAME d with
    | .error _ => false
    | .ok cname => if cname ≠ expects then false else checkCNAMEList env expects ds

/-- `RouteManager.checkCNAME`: every external domain must CNAME to
`r.DomainInternal` with a trailing dot. -/
def checkCNAME (env : Env) (r : Route) : Bool :=
  checkCNAMEList env (r.domainInternal ++ ".") r.GetDomains

/-- `sort.Strings`, as insertion sort under the lexicographic order. -/
def sortHosts (l : List String) : List String :=
  List.insertionSort (· ≤ ·) l

/-- The loop body of `checkHosts`: resolve each external domain, sort the
addresses and compare with the sorted internal addresses. -/
def checkHostsList (env : Env) (hosts : List String) : List String → Bool
  | [] => true
  | d :: ds =>
    match env.lookupHost d with
    | .error _ => false
    | .ok obsHosts =>
      if sortHosts obsHosts = hosts then checkHostsList env hosts ds else false

/-- `RouteManager.checkHosts`: resolve `r.DomainInternal`, sort, then
compare every external domain's sorted addresses with it. -/
def checkHosts (env : Env) (r : Route) : Bool :=
  match env.lookupHost r.domainInternal with
  | .error _ => false
  | .ok hosts => checkHostsList env (sortHosts hosts) r.GetDomains

/-- `RouteManager.checkDistribution`: `CloudFront.Get`, then
`*dist.Status == "Deployed" && *dist.DistributionConfig.Enabled`;
a `Get` error yields `false`. -/
def checkDistribution (env : Env) (r : Route) : Bool :=
  match env.cdnGet r.distId with
  | .error _ => false
  | .ok dist => dist.status = "Deployed" && dist.enabled

/-- `RouteManager.deployCertificate`: upload under the staging alias
`cdn-route-<domain>-new`, bind on the distribution, rename to
`cdn-route-<domain>`; each error returns immediately. -/
def deployCertificate (env : Env) (domain distId : String) (cert : CertResource) :
    Except Err Unit × List Call :=
  let prev := "cdn-route-" ++ domain ++ "-new"
  let next := "cdn-route-" ++ domain
  match env.iamUploadCertificate prev cert with
  | .error e => (.error e, [.iamUpload prev cert])
  | .ok certId =>
    match env.cdnSetCertificate distId certId with
    | .error e => (.error e, [.iamUpload prev cert, .cdnSetCert distId certId])
    | .ok _ =>
      (env.iamRenameCertificate prev next,
       [.iamUpload prev cert, .cdnSetCert distId certId, .iamRename prev next])

/-- `RouteManager.provisionCert`: obtain from ACME then deploy. -/
def provisionCert (env : Env) (r : Route) :
    Except Err CertResource × List Call :=
  match env.acmeObtainCertificate r.GetDomains with
  | .error e => (.error e, [.acmeObtain r.GetDomains])
  | .ok cert =>
    match deployCertificate env r.domainExternal r.distId cert with
    | (.error e, tr) => (.error e, .acmeObtain r.GetDomains :: tr)
    | (.ok _, tr) => (.ok cert, .acmeObtain r.GetDomains :: tr)

/-- `RouteManager.updateProvisioning`: behind the gate
`(checkCNAME || checkHosts) && checkDistribution`, obtain and deploy a
certificate, parse its expiry, create the Certificate row, mark the
Route `Provisioned` and save it; a failed gate is a silent no-op. -/
def updateProvisioning (env : Env) (r : Route) : Except Err Unit × List Call :=
  if (checkCNAME env r || checkHosts env r) && checkDistribution env r then
    match provisionCert env r with
    | (.error e, tr) => (.error e, tr)
    | (.ok cert, tr) =>
      match env.pemExpiration cert.certificate with
      | .error e => (.error e, tr)
      | .ok expires =>
        let certRow : Certificate :=
          { id := 0, routeId := 0, domain := cert.domain, certURL := cert.certURL,
            certificate := cert.certificate, expires := expires }
        let r' := { r with state := .Provisioned, certificate := some certRow }
        (.ok (), tr ++ [.dbCreateCert certRow, .dbSaveRoute r'])
  else
    (.ok (), [])

/-- `RouteManager.updateDeprovisioning`: `CloudFront.Delete`; when it
reports `deleted`, delete the IAM certificate `cdn-route-<domain_external>`
and only then mark the Route `Deprovisioned` and save it. -/
def updateDeprovisioning (env : Env) (r : Route) : Except Err Unit × List Call :=
  match env.cdnDelete r.distId with
  | .error e => (.error e, [.cdnDelete r.distId])
  | .ok deleted =>
    if deleted then
      match env.iamDeleteCertificate ("cdn-route-" ++ r.domainExternal) false with
      | .error e =>
        (.error e, [.cdnDelete r.distId,
                    .iamDelete ("cdn-route-" ++ r.domainExternal) false])
      | .ok _ =>
        let r' := { r with state := .Deprovisioned }
        (.ok (), [.cdnDelete r.distId,
                  .iamDelete ("cdn-route-" ++ r.domainExternal) false,
                  .dbSaveRoute r'])
    else
      (.ok (), [.cdnDelete r.distId])

/-- `RouteManager.Update`: dispatch on the Route's state; the terminal
states are no-ops. -/
def Update (env : Env) (r : Route) : Except Err Unit × List Call :=
  match r.state with
  | .Provisioning => updateProvisioning env r
  | .Deprovisioning => updateDeprovisioning env r
  | _ => (.ok (), [])

/-- `RouteManager.Renew`: ACME-renew from the stored resource, deploy,
parse the new expiry, rewrite the Certificate row in place.  The middle
component is the stored row after the operation (the row the
`DB.Model(&r).Related(&certRow)` read yielded, as left by the call). -/
def Renew (env : Env) (r : Route) (certRow : Certificate) :
    Except Err Unit × Certificate × List Call :=
  match env.acmeRenewCertificate certRow.Resource with
  | .error e => (.error e, certRow, [.acmeRenew certRow.Resource])
  | .ok certResource =>
    match deployCertificate env r.domainExternal r.distId certResource with
    | (.error e, tr) => (.error e, certRow, .acmeRenew certRow.Resource :: tr)
    | (.ok _, tr) =>
      match env.pemExpiration certResource.certificate with
      | .error e => (.error e, certRow, .acmeRenew certRow.Resource :: tr)
      | .ok expires =>
        let certRow' :=
          { certRow with
            domain := certResource.domain,
            certURL := certResource.certURL,
            certificate := certResource.certificate,
            expires := expires }
        (.ok (), certRow',
         .acmeRenew certRow.Resource :: (tr ++ [.dbSaveCert certRow']))

/-- Thirty days in seconds: the `interval '30 days'` of the sweep query. -/
def thirtyDays : Nat := 30 * 24 * 60 * 60

/-- The sweep query of `RenewAll`:
`state = 'provisioned' and expires < now() + interval '30 days'`,
joined with each Route's Certificate. -/
def renewQuery (now : Nat) (db : List (Route × Certificate)) :
    List (Route × Certificate) :=
  db.filter fun rc =>
    decide (rc.1.state = State.Provisioned) && decide (rc.2.expires < now + thirtyDays)

/-- `RouteManager.RenewAll`: run `Renew` on every row the query returns,
discarding each result; the trace is the concatenation of the per-Route
traces. -/
def RenewAll (env : Env) (now : Nat) (db : List (Route × Certificate)) :
    List Call :=
  ((renewQuery now db).map fun rc => (Renew env rc.1 rc.2).2.2).flatten

/-- The view of `GetDistribution`'s response used by `Delete`:
`*resp.Distribution.Status` and `resp.ETag`. -/
structure DistSummary where
  status : String
  etag : String
deriving DecidableEq, Repr

/-- The AWS CloudFront SDK calls `utils.Distribution.Delete` makes. -/
structure CFEnv where
  getDistribution : String → Except Err DistSummary
  deleteDistribution : String → String → Except Err Unit

/-- Trace alphabet of `utils.Distribution.Delete`. -/
inductive CFCall where
  | getDist (id : String)
  | delDist (id etag : String)
deriving DecidableEq, Repr

namespace Distribution

/-- `utils.Distribution.Delete`: `GetDistribution`; when the status is
not `Deployed` return `(false, nil)`; otherwise `DeleteDistribution`
guarded by the ETag.  Go's `(false, err)` with `err ≠ nil` is the
`.error` case. -/
def Delete (env : CFEnv) (distId : String) : Except Err Bool × List CFCall :=
  match env.getDistribution distId with
  | .error e => (.error e, [.getDist distId])
  | .ok resp =>
    if resp.status ≠ "Deployed" then
      (.ok false, [.getDist distId])
    else
      match env.deleteDistribution distId resp.etag with
      | .error e => (.error e, [.getDist distId, .delDist distId resp.etag])
      | .ok _ => (.ok true, [.getDist distId, .delDist distId resp.etag])

end Distribution

/-! Helper lemmas about the DNS checks. -/

/-- Agreement of two resolver answers up to reordering of the address
list: both fail, or both succeed with permuted lists. -/
def lookupAgrees : Except Err (List String) → Except Err (List String) → Prop
  | .ok l, .ok l' => l.Perm l'
  | .error _, .error _ => True
  | _, _ => False

theorem sortHosts_eq_of_perm {l l' : List String} (h : l.Perm l') :
    sortHosts l = sortHosts l' :=
  List.eq_of_perm_of_sorted
    ((List.perm_insertionSort _ _).trans (h.trans (List.perm_insertionSort _ _).symm))
    (List.sorted_insertionSort _ _) (List.sorted_insertionSort _ _)

theorem checkCNAMEList_eq_true (env : Env) (expects : String) (ds : List String) :
    checkCNAMEList env expects ds = true ↔
      ∀ d ∈ ds, env.lookupCNAME d = .ok expects := by
  induction ds with
  | nil => simp [checkCNAMEList]
  | cons d ds ih =>
    cases h : env.lookupCNAME d with
    | error e =>
      simp only [checkCNAMEList, h, Bool.false_eq_true, false_iff]
      intro hall
      have := hall d (List.mem_cons_self d ds)
      rw [h] at this
      exact Except.noConfusion this
    | ok cname =>
      by_cases hc : cname = expects
      · subst hc
        simp only [checkCNAMEList, h, ne_eq, not_true_eq_false, if_false, ih]
        constructor
        · intro hall d' hd'
          rcases List.mem_cons.mp hd' with rfl | hd'
          · exact h
          · exact hall d' hd'
        · intro hall d' hd'
          exact hall d' (List.mem_cons_of_mem _ hd')
      · simp only [checkCNAMEList, h, ne_eq, hc, not_false_eq_true, if_true,
          Bool.false_eq_true, false_iff]
        intro hall
        have := hall d (List.mem_cons_self d ds)
        rw [h] at this
        exact hc (Except.ok.inj this)

theorem checkHostsList_eq_true (env : Env) (hs : List String) (ds : List String) :
    checkHostsList env hs ds = true ↔
      ∀ d ∈ ds, ∃ os, env.lookupHost d = .ok os ∧ sortHosts os = hs := by
  induction ds with
  | nil => simp [checkHostsList]
  | cons d ds ih =>
    cases h : env.lookupHost d with
    | error e =>
      simp only [checkHostsList, h, Bool.false_eq_true, false_iff]
      intro hall
      rcases hall d (List.mem_cons_self d ds) with ⟨os, hos, _⟩
      rw [h] at hos
      exact Except.noConfusion hos
    | ok obsHosts =>
      by_cases hsort : sortHosts obsHosts = hs
      · simp only [checkHostsList, h, hsort, if_true, ih]
        constructor
        · intro hall d' hd'
          rcases List.mem_cons.mp hd' with rfl | hd'
          · exact ⟨obsHosts, h, hsort⟩
          · exact hall d' hd'
        · intro hall d' hd'
          exact hall d' (List.mem_cons_of_mem _ hd')
      · simp only [checkHostsList, h, hsort, if_false, Bool.false_eq_true, false_iff]
        intro hall
        rcases hall d (List.mem_cons_self d ds) with ⟨os, hos, hsos⟩
        rw [h] at hos
        exact hsort ((Except.ok.inj hos) ▸ hsos)

theorem checkHosts_eq_true (env : Env) (r : Route) :
    checkHosts env r = true ↔
      ∃ hs, env.lookupHost r.domainInternal = .ok hs ∧
        ∀ d ∈ r.GetDomains, ∃ os, env.lookupHost d = .ok os ∧
          sortHosts os = sortHosts hs := by
  cases h : env.lookupHost r.domainInternal with
  | error e =>
    simp only [checkHosts, h, Bool.false_eq_true, false_iff]
    rintro ⟨hs, hok, -⟩
    exact Except.noConfusion hok
  | ok hosts =>
    simp only [checkHosts, h, checkHostsList_eq_true]
    constructor
    · intro hall
      exact ⟨hosts, rfl, hall⟩
    · rintro ⟨hs, hok, hall⟩
      have : hosts = hs := Except.ok.inj hok
      subst this
      exact hall

/-! Helper lemmas about traces. -/

theorem deployCertificate_trace_no_log (env : Env) (domain distId : String)
    (cert : CertResource) :
    ∀ c ∈ (deployCertificate env domain distId cert).2, c.isLog = false := by
  cases h1 : env.iamUploadCertificate ("cdn-route-" ++ domain ++ "-new") cert with
  | error e => simp [deployCertificate, h1, Call.isLog]
  | ok certId =>
    cases h2 : env.cdnSetCertificate distId certId with
    | error e => simp [deployCertificate, h1, h2, Call.isLog]
    | ok u => simp [deployCertificate, h1, h2, Call.isLog]

theorem renew_trace_no_log (env : Env) (r : Route) (certRow : Certificate) :
    ∀ c ∈ (Renew env r certRow).2.2, c.isLog = false := by
  cases h1 : env.acmeRenewCertificate certRow.Resource with
  | error e => simp [Renew, h1, Call.isLog]
  | ok res =>
    have hdep := deployCertificate_trace_no_log env r.domainExternal r.distId res
    rcases h2 : deployCertificate env r.domainExternal r.distId res with ⟨res2, tr⟩
    rw [h2] at hdep
    cases res2 with
    | error e =>
      intro c hc
      simp only [Renew, h1, h2, List.mem_cons] at hc
      rcases hc with rfl | hc
      · rfl
      · exact hdep c hc
    | ok u =>
      cases h3 : env.pemExpiration res.certificate with
      | error e =>
        intro c hc
        simp only [Renew, h1, h2, h3, List.mem_cons] at hc
        rcases hc with rfl | hc
        · rfl
        · exact hdep c hc
      | ok expires =>
        intro c hc
        simp only [Renew, h1, h2, h3, List.mem_cons, List.mem_append,
          List.mem_singleton, List.not_mem_nil, or_false] at hc
        rcases hc with rfl | hc | rfl
        · rfl
        · exact hdep c hc
        · rfl

/-! Concrete fixtures used by the witnesses and counterexamples. -/

/-- A collaborator environment in which every call fails. -/
def stubEnv : Env where
  lookupCNAME := fun _ => .error "stub"
  lookupHost := fun _ => .error "stub"
  cdnCreate := fun _ _ _ => .error "stub"
  cdnGet := fun _ => .error "stub"
  cdnSetCertificate := fun _ _ => .error "stub"
  cdnDelete := fun _ => .error "stub"
  iamUploadCertificate := fun _ _ => .error "stub"
  iamRenameCertificate := fun _ _ => .error "stub"
  iamDeleteCertificate := fun _ _ => .error "stub"
  acmeObtainCertificate := fun _ => .error "stub"
  acmeRenewCertificate := fun _ => .error "stub"
  pemExpiration := fun _ => .error "stub"
  dbCreateRoute := fun _ => .error "stub"

/-- A certificate resource for `a.example.com`. -/
def certResA : CertResource :=
  { domain := "a.example.com", certURL := "https://ca/a", certificate := "PEM-A" }

/-- A certificate resource for `b.example.com`. -/
def certResB : CertResource :=
  { domain := "b.example.com", certURL := "https://ca/b", certificate := "PEM-B" }

/-- A provisioned Route for `a.example.com`. -/
def routeA : Route :=
  { id := 1, instanceId := "inst-a", state := .Provisioned,
    domainExternal := "a.example.com", domainInternal := "d1.cdn.net",
    distId := "DA", origin := "origin-a", path := "/", certificate := none }

/-- A provisioned Route for `b.example.com`. -/
def routeB : Route :=
  { id := 2, instanceId := "inst-b", state := .Provisioned,
    domainExternal := "b.example.com", domainInternal := "d2.cdn.net",
    distId := "DB2", origin := "origin-b", path := "/", certificate := none }

/-- The stored Certificate row of `routeA`. -/
def certRowA : Certificate :=
  { id := 11, routeId := 1, domain := "a.example.com",
    certURL := "https://ca/a", certificate := "PEM-A", expires := 100 }

/-- The stored Certificate row of `routeB`. -/
def certRowB : Certificate :=
  { id := 12, routeId := 2, domain := "b.example.com",
    certURL := "https://ca/b", certificate := "PEM-B", expires := 100 }

/-! Claim theorems. -/

/-- C1: for every domain, distribution id and certificate resource,
`deployCertificate` performs exactly three collaborator calls in strict
order — IAM upload under the staging alias `cdn-route-<domain>-new`,
CDN `SetCertificate` binding the returned certificate id, then IAM
rename from `cdn-route-<domain>-new` to `cdn-route-<domain>` — and an
error from an earlier step stops the sequence and is returned. -/
theorem deployCertificate_order (env : Env) (domain distId : String)
    (cert : CertResource) :
    (∀ e, env.iamUploadCertificate ("cdn-route-" ++ domain ++ "-new") cert = .error e →
      deployCertificate env domain distId cert =
        (.error e, [.iamUpload ("cdn-route-" ++ domain ++ "-new") cert])) ∧
    (∀ certId,
      env.iamUploadCertificate ("cdn-route-" ++ domain ++ "-new") cert = .ok certId →
      (∀ e, env.cdnSetCertificate distId certId = .error e →
        deployCertificate env domain distId cert =
          (.error e, [.iamUpload ("cdn-route-" ++ domain ++ "-new") cert,
                      .cdnSetCert distId certId])) ∧
      (env.cdnSetCertificate distId certId = .ok () →
        deployCertificate env domain distId cert =
          (env.iamRenameCertificate ("cdn-route-" ++ domain ++ "-new")
             ("cdn-route-" ++ domain),
           [.iamUpload ("cdn-route-" ++ domain ++ "-new") cert,
            .cdnSetCert distId certId,
            .iamRename ("cdn-route-" ++ domain ++ "-new") ("cdn-route-" ++ domain)]))) := by
  refine ⟨?_, ?_⟩
  · intro e h1
    simp [deployCertificate, h1]
  · intro certId h1
    refine ⟨?_, ?_⟩
    · intro e h2
      simp [deployCertificate, h1, h2]
    · intro h2
      simp [deployCertificate, h1, h2]

/-- Environment for the `deployCertificate_order` witness: all three
deployment calls succeed. -/
def envC1 : Env :=
  { stubEnv with
    iamUploadCertificate := fun _ _ => .ok "CERT-1"
    cdnSetCertificate := fun _ _ => .ok ()
    iamRenameCertificate := fun _ _ => .ok () }

/-- Witness for `deployCertificate_order` at a concrete input. -/
theorem deployCertificate_order_witness :
    deployCertificate envC1 "a.example.com" "D1" certResA =
      (.ok (), [.iamUpload "cdn-route-a.example.com-new" certResA,
                .cdnSetCert "D1" "CERT-1",
                .iamRename "cdn-route-a.example.com-new" "cdn-route-a.example.com"]) := by
  have h := ((deployCertificate_order envC1 "a.example.com" "D1" certResA).2
    "CERT-1" rfl).2 rfl
  simpa using h

/-- C2: for a Route in state `Provisioning`, when the gate fails — both
DNS checks false, or the CDN reports a status other than `Deployed` or a
disabled distribution — `Update` returns no error, makes no ACME, IAM,
CDN-mutating or database call, and the Route stays in `Provisioning`. -/
theorem update_provisioning_gate_noop (env : Env) (r : Route)
    (hstate : r.state = .Provisioning)
    (hgate : (checkCNAME env r = false ∧ checkHosts env r = false) ∨
      ∃ d, env.cdnGet r.distId = .ok d ∧
        (d.status ≠ "Deployed" ∨ d.enabled = false)) :
    Update env r = (.ok (), []) ∧ r.state = .Provisioning := by
  refine ⟨?_, hstate⟩
  have hfalse : ((checkCNAME env r || checkHosts env r) && checkDistribution env r) = false := by
    rcases hgate with ⟨hc, hh⟩ | ⟨d, hd, hbad⟩
    · simp [hc, hh]
    · have : checkDistribution env r = false := by
        rcases hbad with hs | he
        · simp [checkDistribution, hd, hs]
        · simp [checkDistribution, hd, he]
      simp [this]
  simp [Update, hstate, updateProvisioning, hfalse]

/-- Environment for the `update_provisioning_gate_noop` witness: the
resolver fails both checks while the distribution is ready. -/
def envC2 : Env :=
  { stubEnv with
    cdnGet := fun _ => .ok { status := "Deployed", enabled := true } }

/-- Route fixture in state `Provisioning`. -/
def routeP : Route :=
  { id := 3, instanceId := "inst-p", state := .Provisioning,
    domainExternal := "a.example.com", domainInternal := "d1.cdn.net",
    distId := "DP", origin := "origin-p", path := "/", certificate := none }

/-- Witness for `update_provisioning_gate_noop` at a concrete input. -/
theorem update_provisioning_gate_noop_witness :
    Update envC2 routeP = (.ok (), []) ∧ routeP.state = .Provisioning :=
  update_provisioning_gate_noop envC2 routeP rfl
    (Or.inl ⟨by decide, by decide⟩)

/-- C10: for a Route in state `Provisioning`, an error from the CDN
`Get` made while evaluating the gate makes `checkDistribution` report
false, and `Update` returns no error, makes no ACME, IAM, CDN-mutating
or database call, and leaves the Route in `Provisioning`. -/
theorem update_provisioning_cdnGet_error (env : Env) (r : Route) (e : Err)
    (hstate : r.state = .Provisioning)
    (hget : env.cdnGet r.distId = .error e) :
    checkDistribution env r = false ∧
      Update env r = (.ok (), []) ∧ r.state = .Provisioning := by
  have hdist : checkDistribution env r = false := by
    simp [checkDistribution, hget]
  refine ⟨hdist, ?_, hstate⟩
  have hfalse : ((checkCNAME env r || checkHosts env r) && checkDistribution env r) = false := by
    simp [hdist]
  simp [Update, hstate, updateProvisioning, hfalse]

/-- Environment for the `update_provisioning_cdnGet_error` witness: DNS
would pass but the CDN `Get` fails. -/
def envC10 : Env :=
  { stubEnv with
    lookupCNAME := fun _ => .ok "d1.cdn.net."
    cdnGet := fun _ => .error "cloudfront unavailable" }

/-- Witness for `update_provisioning_cdnGet_error` at a concrete input. -/
theorem update_provisioning_cdnGet_error_witness :
    checkDistribution envC10 routeP = false ∧
      Update envC10 routeP = (.ok (), []) ∧ routeP.state = .Provisioning :=
  update_provisioning_cdnGet_error envC10 routeP "cloudfront unavailable" rfl rfl

/-- C8: `checkCNAME` returns true exactly when every external domain's
CNAME resolves to `domain_internal` followed by a trailing dot, and a
resolver error on any domain yields false rather than an error. -/
theorem checkCNAME_spec (env : Env) (r : Route) :
    (checkCNAME env r = true ↔
      ∀ d ∈ r.GetDomains, env.lookupCNAME d = .ok (r.domainInternal ++ ".")) ∧
    (∀ d ∈ r.GetDomains, (∃ e, env.lookupCNAME d = .error e) →
      checkCNAME env r = false) := by
  have hiff := checkCNAMEList_eq_true env (r.domainInternal ++ ".") r.GetDomains
  constructor
  · exact hiff
  · rintro d hd ⟨e, he⟩
    cases hcn : checkCNAME env r with
    | false => rfl
    | true =>
      have hall := hiff.mp hcn d hd
      rw [he] at hall
      exact Except.noConfusion hall

/-- Environment for the `checkCNAME_spec` witness: every domain's CNAME
resolves to `d1.cdn.net.`. -/
def envC8 : Env :=
  { stubEnv with lookupCNAME := fun _ => .ok "d1.cdn.net." }

/-- A multi-SAN Route in state `Provisioning`. -/
def routeMulti : Route :=
  { id := 5, instanceId := "inst-m", state := .Provisioning,
    domainExternal := "a.example.com,b.example.com",
    domainInternal := "d1.cdn.net", distId := "DM", origin := "origin-m",
    path := "/", certificate := none }

/-- Witness for `checkCNAME_spec` at a concrete input. -/
theorem checkCNAME_spec_witness : checkCNAME envC8 routeMulti = true :=
  (checkCNAME_spec envC8 routeMulti).1.mpr fun _ _ => rfl

/-- C9: the host check is invariant under permutation of the resolver's
address lists, and returns true exactly when every external domain's
sorted addresses equal the sorted addresses of `domain_internal`, a
resolver error yielding false. -/
theorem checkHosts_perm_spec (env env' : Env) (r : Route)
    (hagree : ∀ s, lookupAgrees (env.lookupHost s) (env'.lookupHost s)) :
    checkHosts env r = checkHosts env' r ∧
    (checkHosts env r = true ↔
      ∃ hs, env.lookupHost r.domainInternal = .ok hs ∧
        ∀ d ∈ r.GetDomains, ∃ os, env.lookupHost d = .ok os ∧
          sortHosts os = sortHosts hs) := by
  have hchar := checkHosts_eq_true env r
  have hchar' := checkHosts_eq_true env' r
  refine ⟨?_, hchar⟩
  apply Bool.eq_iff_iff.mpr
  rw [hchar, hchar']
  constructor
  · rintro ⟨hs, hok, hall⟩
    have hagr := hagree r.domainInternal
    rw [hok] at hagr
    cases h' : env'.lookupHost r.domainInternal with
    | error e => rw [h'] at hagr; exact False.elim hagr
    | ok hs' =>
      rw [h'] at hagr
      have hperm : hs.Perm hs' := hagr
      refine ⟨hs', rfl, ?_⟩
      intro d hd
      rcases hall d hd with ⟨os, hos, hsort⟩
      have hagrd := hagree d
      rw [hos] at hagrd
      cases h'' : env'.lookupHost d with
      | error e => rw [h''] at hagrd; exact False.elim hagrd
      | ok os' =>
        rw [h''] at hagrd
        have hpermo : os.Perm os' := hagrd
        exact ⟨os', rfl, by
          rw [← sortHosts_eq_of_perm hpermo, hsort, sortHosts_eq_of_perm hperm]⟩
  · rintro ⟨hs', hok', hall'⟩
    have hagr := hagree r.domainInternal
    rw [hok'] at hagr
    cases h : env.lookupHost r.domainInternal with
    | error e => rw [h] at hagr; exact False.elim hagr
    | ok hs =>
      rw [h] at hagr
      have hperm : hs.Perm hs' := hagr
      refine ⟨hs, rfl, ?_⟩
      intro d hd
      rcases hall' d hd with ⟨os', hos', hsort'⟩
      have hagrd := hagree d
      rw [hos'] at hagrd
      cases h'' : env.lookupHost d with
      | error e => rw [h''] at hagrd; exact False.elim hagrd
      | ok os =>
        rw [h''] at hagrd
        have hpermo : os.Perm os' := hagrd
        exact ⟨os, rfl, by
          rw [sortHosts_eq_of_perm hpermo, hsort', ← sortHosts_eq_of_perm hperm]⟩

/-- Environment for the `checkHosts_perm_spec` witness: every lookup
resolves to the same two addresses. -/
def envC9 : Env :=
  { stubEnv with lookupHost := fun _ => .ok ["1.1.1.1", "2.2.2.2"] }

/-- Permuted variant of `envC9`: the same addresses, reversed. -/
def envC9sw : Env :=
  { stubEnv with lookupHost := fun _ => .ok ["2.2.2.2", "1.1.1.1"] }

/-- Witness for `checkHosts_perm_spec` at concrete inputs: reordering the
resolver's answers does not change the check, and the check passes when
the sorted address sets agree. -/
theorem checkHosts_perm_spec_witness :
    checkHosts envC9 routeP = checkHosts envC9sw routeP ∧
      checkHosts envC9 routeP = true :=
  ⟨(checkHosts_perm_spec envC9 envC9sw routeP fun _ =>
      List.Perm.swap "2.2.2.2" "1.1.1.1" []).1,
   (checkHosts_perm_spec envC9 envC9sw routeP fun _ =>
      List.Perm.swap "2.2.2.2" "1.1.1.1" []).2.mpr
     ⟨["1.1.1.1", "2.2.2.2"], rfl, fun _ _ => ⟨["1.1.1.1", "2.2.2.2"], rfl, rfl⟩⟩⟩

/-- Environment for the `RenewAll` fixtures: renewal fails for
`a.example.com` and succeeds for every other domain. -/
def env3 : Env :=
  { stubEnv with
    iamUploadCertificate := fun _ _ => .ok "CERT-3"
    cdnSetCertificate := fun _ _ => .ok ()
    iamRenameCertificate := fun _ _ => .ok ()
    acmeRenewCertificate := fun res =>
      if res.domain = "a.example.com" then .error "acme down" else .ok res
    pemExpiration := fun _ => .ok 999 }

/-- C3 counterexample: in a sweep over two qualifying Routes where the
first `Renew` fails, `Renew` is still exercised for the second Route
(its ACME renewal call appears in the trace), but the failure is not
logged: the sweep's trace contains no log event.  This refutes the
clause "each such failure is logged". -/
theorem renewAll_failure_not_logged_cex :
    (Renew env3 routeA certRowA).1 = .error "acme down" ∧
    Call.acmeRenew certRowB.Resource ∈
      RenewAll env3 50 [(routeA, certRowA), (routeB, certRowB)] ∧
    (RenewAll env3 50 [(routeA, certRowA), (routeB, certRowB)]).countP
      Call.isLog = 0 := by
  refine ⟨rfl, by decide, by decide⟩

/-- C3 (amended): `RenewAll` calls `Renew` on each selected Route
sequentially and an error returned by `Renew` for one Route neither
aborts the sweep nor prevents `Renew` being called on the remaining
Routes — every selected Route's full `Renew` trace occurs inside the
sweep's trace — but failures are silently discarded, not logged: the
sweep's trace never contains a log event. -/
theorem renewAll_no_abort (env : Env) (now : Nat)
    (db : List (Route × Certificate)) :
    (∀ rc ∈ renewQuery now db,
      List.Sublist (Renew env rc.1 rc.2).2.2 (RenewAll env now db)) ∧
    ∀ c ∈ RenewAll env now db, c.isLog = false := by
  constructor
  · intro rc hrc
    exact List.sublist_flatten_of_mem (List.mem_map_of_mem _ hrc)
  · intro c hc
    unfold RenewAll at hc
    rcases List.mem_flatten.mp hc with ⟨l, hl, hcl⟩
    rcases List.mem_map.mp hl with ⟨rc, hrc, rfl⟩
    exact renew_trace_no_log env rc.1 rc.2 c hcl

/-- Witness for `renewAll_no_abort` at a concrete input: the second
Route's `Renew` trace survives the first Route's failure. -/
theorem renewAll_no_abort_witness :
    List.Sublist (Renew env3 routeB certRowB).2.2
      (RenewAll env3 50 [(routeA, certRowA), (routeB, certRowB)]) :=
  (renewAll_no_abort env3 50 [(routeA, certRowA), (routeB, certRowB)]).1
    (routeB, certRowB) (by decide)

/-- C4: if any step of `Renew` fails (ACME renewal, certificate
deployment, or parsing the not-after time from the new PEM), `Renew`
returns that step's error and the stored Certificate row is unchanged;
only on success is the row rewritten in place (same `id` and `routeId`)
with the new domain, cert URL, PEM and expiry. -/
theorem renew_row_frame (env : Env) (r : Route) (certRow : Certificate) :
    (∀ e, (Renew env r certRow).1 = .error e →
      (Renew env r certRow).2.1 = certRow ∧
      (env.acmeRenewCertificate certRow.Resource = .error e ∨
        ∃ res, env.acmeRenewCertificate certRow.Resource = .ok res ∧
          ((deployCertificate env r.domainExternal r.distId res).1 = .error e ∨
            ((deployCertificate env r.domainExternal r.distId res).1 = .ok () ∧
              env.pemExpiration res.certificate = .error e)))) ∧
    ((Renew env r certRow).1 = .ok () →
      ∃ res expires, env.acmeRenewCertificate certRow.Resource = .ok res ∧
        (deployCertificate env r.domainExternal r.distId res).1 = .ok () ∧
        env.pemExpiration res.certificate = .ok expires ∧
        (Renew env r certRow).2.1 =
          { certRow with
            domain := res.domain
            certURL := res.certURL
            certificate := res.certificate
            expires := expires }) := by
  cases h1 : env.acmeRenewCertificate certRow.Resource with
  | error e0 =>
    constructor
    · intro e he
      simp only [Renew, h1] at he
      cases he
      exact ⟨by simp [Renew, h1], Or.inl rfl⟩
    · intro hok
      simp only [Renew, h1] at hok
      exact Except.noConfusion hok
  | ok res =>
    rcases h2 : deployCertificate env r.domainExternal r.distId res with ⟨dres, tr⟩
    cases dres with
    | error e0 =>
      constructor
      · intro e he
        simp only [Renew, h1, h2] at he
        cases he
        refine ⟨by simp [Renew, h1, h2],
          Or.inr ⟨res, rfl, Or.inl (by first | rfl | rw [h2])⟩⟩
      · intro hok
        simp only [Renew, h1, h2] at hok
        exact Except.noConfusion hok
    | ok u =>
      cases u
      cases h3 : env.pemExpiration res.certificate with
      | error e0 =>
        constructor
        · intro e he
          simp only [Renew, h1, h2, h3] at he
          cases he
          refine ⟨by simp [Renew, h1, h2, h3],
            Or.inr ⟨res, rfl,
              Or.inr ⟨by first | rfl | rw [h2], by first | rfl | exact h3⟩⟩⟩
        · intro hok
          simp only [Renew, h1, h2, h3] at hok
          exact Except.noConfusion hok
      | ok expires =>
        constructor
        · intro e he
          simp only [Renew, h1, h2, h3] at he
          exact Except.noConfusion he
        · intro _
          exact ⟨res, expires, rfl,
            by first | rfl | rw [h2], by first | rfl | exact h3,
            by simp [Renew, h1, h2, h3]⟩

/-- Environment for the `renew_row_frame` witness: every step of the
renewal succeeds and the CA hands back an updated resource. -/
def env4 : Env :=
  { stubEnv with
    iamUploadCertificate := fun _ _ => .ok "CERT-4"
    cdnSetCertificate := fun _ _ => .ok ()
    iamRenameCertificate := fun _ _ => .ok ()
    acmeRenewCertificate := fun res =>
      .ok { res with certURL := "https://ca/renewed", certificate := "PEM-NEW" }
    pemExpiration := fun _ => .ok 4242 }

/-- Witness for `renew_row_frame` at a concrete input. -/
theorem renew_row_frame_witness :
    ∃ res expires, env4.acmeRenewCertificate certRowA.Resource = .ok res ∧
      (deployCertificate env4 routeA.domainExternal routeA.distId res).1 = .ok () ∧
      env4.pemExpiration res.certificate = .ok expires ∧
      (Renew env4 routeA certRowA).2.1 =
        { certRowA with
          domain := res.domain
          certURL := res.certURL
          certificate := res.certificate
          expires := expires } :=
  (renew_row_frame env4 routeA certRowA).2 rfl

/-- C5: for a Route in state `Deprovisioning`, the tick calls CDN
`Delete`; a `(false, nil)` answer is a no-op that leaves the state
alone; a `deleted = true` answer removes the IAM certificate aliased
`cdn-route-<domain_external>` and only then saves the Route as
`Deprovisioned` (an IAM failure is returned before any save); and
`Distribution.Delete` itself answers `(false, nil)` whenever the
distribution's status is not `Deployed`. -/
theorem update_deprovisioning_spec (env : Env) (r : Route)
    (hstate : r.state = .Deprovisioning) :
    (env.cdnDelete r.distId = .ok false →
      Update env r = (.ok (), [.cdnDelete r.distId])) ∧
    (env.cdnDelete r.distId = .ok true →
      (∀ e, env.iamDeleteCertificate ("cdn-route-" ++ r.domainExternal) false = .error e →
        Update env r =
          (.error e, [.cdnDelete r.distId,
                      .iamDelete ("cdn-route-" ++ r.domainExternal) false])) ∧
      (env.iamDeleteCertificate ("cdn-route-" ++ r.domainExternal) false = .ok () →
        Update env r =
          (.ok (), [.cdnDelete r.distId,
                    .iamDelete ("cdn-route-" ++ r.domainExternal) false,
                    .dbSaveRoute { r with state := .Deprovisioned }]))) ∧
    (∀ e, env.cdnDelete r.distId = .error e →
      Update env r = (.error e, [.cdnDelete r.distId])) ∧
    (∀ cfenv : CFEnv, ∀ distId : String, ∀ s : DistSummary,
      cfenv.getDistribution distId = .ok s → s.status ≠ "Deployed" →
      Distribution.Delete cfenv distId = (.ok false, [.getDist distId])) := by
  refine ⟨?_, ?_, ?_, ?_⟩
  · intro h1
    simp [Update, hstate, updateDeprovisioning, h1]
  · intro h1
    constructor
    · intro e h2
      simp [Update, hstate, updateDeprovisioning, h1, h2]
    · intro h2
      simp [Update, hstate, updateDeprovisioning, h1, h2]
  · intro e h1
    simp [Update, hstate, updateDeprovisioning, h1]
  · intro cfenv distId s hresp hstatus
    simp [Distribution.Delete, hresp, hstatus]

/-- Environment for the `update_deprovisioning_spec` witness: the CDN
reports the distribution deleted and the IAM delete succeeds. -/
def envC5 : Env :=
  { stubEnv with
    cdnDelete := fun _ => .ok true
    iamDeleteCertificate := fun _ _ => .ok () }

/-- A Route in state `Deprovisioning`. -/
def routeD : Route :=
  { id := 6, instanceId := "inst-d", state := .Deprovisioning,
    domainExternal := "a.example.com", domainInternal := "d1.cdn.net",
    distId := "DD", origin := "origin-d", path := "/", certificate := none }

/-- AWS environment for the `update_deprovisioning_spec` witness: the
distribution is still propagating (`InProgress`). -/
def cfenvC5 : CFEnv :=
  { getDistribution := fun _ => .ok { status := "InProgress", etag := "E1" }
    deleteDistribution := fun _ _ => .error "unused" }

/-- Witness for `update_deprovisioning_spec` at concrete inputs. -/
theorem update_deprovisioning_spec_witness :
    Update envC5 routeD =
      (.ok (), [.cdnDelete "DD", .iamDelete "cdn-route-a.example.com" false,
                .dbSaveRoute { routeD with state := .Deprovisioned }]) ∧
    Distribution.Delete cfenvC5 "DX" = (.ok false, [.getDist "DX"]) := by
  constructor
  · have h := ((update_deprovisioning_spec envC5 routeD rfl).2.1 rfl).2 rfl
    simpa using h
  · exact (update_deprovisioning_spec envC5 routeD rfl).2.2.2 cfenvC5 "DX"
      { status := "InProgress", etag := "E1" } rfl (by decide)

/-- Environment for the C6 counterexample and witness: the CDN create
succeeds while the Store reports a duplicate-key conflict on every
write. -/
def envC6 : Env :=
  { stubEnv with
    cdnCreate := fun _ _ _ => .ok { domainName := "d1.cdn.net", id := "D1" }
    dbCreateRoute := fun _ => .error "duplicate instance_id" }

/-- The Route `Create envC6 "inst-1" "a.example.com" "origin.app" "/"`
hands to the Store. -/
def routeC6 : Route :=
  { id := 0, instanceId := "inst-1", state := .Provisioning,
    domainExternal := "a.example.com", domainInternal := "d1.cdn.net",
    distId := "D1", origin := "origin.app", path := "/", certificate := none }

/-- C6 counterexample: the Store reports a conflict for the Route being
written, yet `Create` — whose source discards the result of
`m.DB.Create(&route)` — returns the Route with a nil error instead of
surfacing the conflict. -/
theorem create_conflict_not_surfaced_cex :
    envC6.dbCreateRoute routeC6 = .error "duplicate instance_id" ∧
    (Create envC6 "inst-1" "a.example.com" "origin.app" "/").1 = .ok routeC6 ∧
    (Create envC6 "inst-1" "a.example.com" "origin.app" "/").2 =
      [.cdnCreate ["a.example.com"] "origin.app" "/", .dbCreateRoute routeC6] := by
  refine ⟨rfl, rfl, by decide⟩

/-- C6 (amended): whenever the CDN create succeeds, `Create` returns the
Route with a nil error regardless of the Store's outcome: the Store
write is attempted (it appears in the trace) but its result — including
a duplicate-`instance_id` conflict — is never surfaced to the caller. -/
theorem create_ignores_store_result (env : Env)
    (instanceId domain origin path : String) (dist : DistCreated)
    (hcdn : env.cdnCreate
      ((domain.toList.splitOn ',').map fun cs => String.mk cs) origin path = .ok dist) :
    Create env instanceId domain origin path =
      (.ok { id := 0, instanceId := instanceId, state := .Provisioning,
             domainExternal := domain, domainInternal := dist.domainName,
             distId := dist.id, origin := origin, path := path,
             certificate := none },
       [.cdnCreate ((domain.toList.splitOn ',').map fun cs => String.mk cs)
          origin path,
        .dbCreateRoute { id := 0, instanceId := instanceId, state := .Provisioning,
                         domainExternal := domain, domainInternal := dist.domainName,
                         distId := dist.id, origin := origin, path := path,
                         certificate := none }]) := by
  simp only [String.toList] at hcdn
  simp [Create, Route.GetDomains, String.toList, hcdn]

/-- Witness for `create_ignores_store_result` at the conflicting Store. -/
theorem create_ignores_store_result_witness :
    Create envC6 "inst-1" "a.example.com" "origin.app" "/" =
      (.ok routeC6, [.cdnCreate ["a.example.com"] "origin.app" "/",
                     .dbCreateRoute routeC6]) := by
  have h := create_ignores_store_result envC6 "inst-1" "a.example.com"
    "origin.app" "/" { domainName := "d1.cdn.net", id := "D1" } rfl
  simpa [routeC6] using h

/-- C7: the sweep of `RenewAll` runs `Renew` over exactly the Routes
with `state = Provisioned` whose certificate expires strictly before
`now + 30 days` — exactly once per such Route when Routes are pairwise
distinct — and a certificate expiring at `now + 30 days` exactly is
excluded. -/
theorem renewAll_selection (env : Env) (now : Nat)
    (db : List (Route × Certificate))
    (hnodup : (db.map Prod.fst).Nodup) :
    (∀ r c, (r, c) ∈ db → r.state = .Provisioned →
      c.expires < now + thirtyDays →
      ((renewQuery now db).map Prod.fst).count r = 1) ∧
    (∀ r, (∀ c, (r, c) ∈ db →
        ¬(r.state = .Provisioned ∧ c.expires < now + thirtyDays)) →
      ((renewQuery now db).map Prod.fst).count r = 0) ∧
    (∀ r c, (r, c) ∈ db → c.expires = now + thirtyDays →
      (r, c) ∉ renewQuery now db) ∧
    RenewAll env now db =
      ((renewQuery now db).map fun rc => (Renew env rc.1 rc.2).2.2).flatten := by
  have hsub : List.Sublist (renewQuery now db) db := List.filter_sublist db
  have hmapnodup : ((renewQuery now db).map Prod.fst).Nodup :=
    hnodup.sublist (hsub.map Prod.fst)
  refine ⟨?_, ?_, ?_, rfl⟩
  · intro r c hmem hstate hexp
    have hq : (r, c) ∈ renewQuery now db := by
      simp only [renewQuery, List.mem_filter, Bool.and_eq_true, decide_eq_true_eq]
      exact ⟨hmem, hstate, hexp⟩
    have hmm : r ∈ (renewQuery now db).map Prod.fst :=
      List.mem_map_of_mem Prod.fst hq
    rw [List.count_eq_of_nodup hmapnodup, if_pos hmm]
  · intro r hnone
    have hnm : r ∉ (renewQuery now db).map Prod.fst := by
      intro hmem
      rcases List.mem_map.mp hmem with ⟨rc, hrc, hfst⟩
      subst hfst
      simp only [renewQuery, List.mem_filter, Bool.and_eq_true,
        decide_eq_true_eq] at hrc
      exact hnone rc.2 (by rw [Prod.mk.eta]; exact hrc.1) hrc.2
    rw [List.count_eq_of_nodup hmapnodup, if_neg hnm]
  · intro r c hmem heq hq
    simp only [renewQuery, List.mem_filter, Bool.and_eq_true,
      decide_eq_true_eq] at hq
    have := hq.2.2
    omega

/-- A Route whose certificate expires exactly at `now + 30 days` for
`now = 50`. -/
def routeE : Route :=
  { id := 4, instanceId := "inst-e", state := .Provisioned,
    domainExternal := "e.example.com", domainInternal := "d4.cdn.net",
    distId := "DE", origin := "origin-e", path := "/", certificate := none }

/-- The boundary Certificate row: `expires = 50 + thirtyDays`. -/
def certRowEdge : Certificate :=
  { id := 13, routeId := 4, domain := "e.example.com",
    certURL := "https://ca/e", certificate := "PEM-E", expires := 2592050 }

/-- Witness for `renewAll_selection` at a concrete database: the
near-expiry Route is swept exactly once and the boundary Route is
excluded. -/
theorem renewAll_selection_witness :
    ((renewQuery 50 [(routeA, certRowA), (routeE, certRowEdge)]).map
      Prod.fst).count routeA = 1 ∧
    (routeE, certRowEdge) ∉ renewQuery 50 [(routeA, certRowA), (routeE, certRowEdge)] := by
  constructor
  · exact (renewAll_selection stubEnv 50 [(routeA, certRowA), (routeE, certRowEdge)]
      (by decide)).1 routeA certRowA (by decide) rfl (by decide)
  · exact (renewAll_selection stubEnv 50 [(routeA, certRowA), (routeE, certRowEdge)]
      (by decide)).2.2.1 routeE certRowEdge (by decide) (by decide)
